import Mathlib

/-!
Shallow embedding of the configuration-reconciliation orchestrator in
src/main/Manager.ts (class Manager) of the wow-recorder repository,
together with proofs of the specified properties.

Configuration snapshots are opaque, comparable-by-value records
(the source compares them with lodash isEqual); we model them as Nat.
-/

namespace WowRecorder

/-- Opaque configuration snapshot, compared by value. -/
abbrev Snap := Nat

/-- Errors thrown by stage validation.  `retryable` models
RetryableConfigError (carries a retry delay in ms, field time);
`auth` models AuthError (HTTP 401/403, rethrown by
validateCloudBaseConfig); `terminal` models a plain Error. -/
inductive CfgError where
  | retryable (msg : String) (time : Nat)
  | auth (msg : String)
  | terminal (msg : String)
deriving DecidableEq, Repr

/-- The message carried by the error (String(error) in the source). -/
def CfgError.message : CfgError → String
  | .retryable m _ => m
  | .auth m => m
  | .terminal m => m

/-- `error instanceof RetryableConfigError` in Manager.internalManage. -/
def CfgError.isRetryable : CfgError → Bool
  | .retryable _ _ => true
  | _ => false

/-- The retry delay, when the error is retryable (error.time). -/
def CfgError.retryDelay : CfgError → Option Nat
  | .retryable _ t => some t
  | _ => none

/-- One entry of Manager.stages: the valid flag and the last
successfully applied snapshot (stage.current).  The name field is
logging-only and omitted. -/
structure StageSt where
  valid : Bool
  current : Snap
deriving DecidableEq, Repr

/-- Per-pass environment for the stage pipeline, indexed by stage
position: stage.get(this.cfg) (the snapshot fetched during this pass),
stage.validate (may throw), and the side effect of stage.configure on
the external recorder state R. -/
structure StageEnv (R : Type) where
  fetch : Nat → Snap
  validate : Nat → Snap → Except CfgError Unit
  applyFx : Nat → Snap → R → R

/-- Result of walking the stage table in one reconciliation pass:
the updated stage table, the updated recorder state, the error that
aborted the pass (if any), and the trace of stage indices that were
fetched / validated / configured. -/
structure PassResult (R : Type) where
  stages : List StageSt
  rcdr : R
  err : Option CfgError
  fetched : List Nat
  validated : List Nat
  applied : List Nat

/-- The stage loop of Manager.internalManage (lines 287-336): for each
stage fetch the snapshot; if it differs from stage.current clear
stage.valid; if the stage is still valid skip it; otherwise validate
(aborting the whole pass on error, leaving later stages untouched),
then configure and record the snapshot as current with valid = true. -/
def runStages {R : Type} (env : StageEnv R) : Nat → List StageSt → R → PassResult R
  | _, [], r => ⟨[], r, none, [], [], []⟩
  | i, st :: rest, r =>
    let snap := env.fetch i
    if st.valid = true ∧ snap = st.current then
      let res := runStages env (i + 1) rest r
      ⟨st :: res.stages, res.rcdr, res.err, i :: res.fetched, res.validated, res.applied⟩
    else
      match env.validate i snap with
      | .error e => ⟨⟨false, st.current⟩ :: rest, r, some e, [i], [i], []⟩
      | .ok _ =>
        let res := runStages env (i + 1) rest (env.applyFx i snap r)
        ⟨⟨true, snap⟩ :: res.stages, res.rcdr, res.err, i :: res.fetched,
          i :: res.validated, i :: res.applied⟩

/-- The Manager member state touched by internalManage. -/
structure MgrCfgState (R : Type) where
  stages : List StageSt
  configValid : Bool
  configMessage : String
  reconfiguring : Bool
  retryTimer : Option Nat
  rcdr : R

/-- Manager.internalManage: set reconfiguring, clear any pending retry
timer, walk the stage table; on a validation error set the config
invalid with the error as message and schedule a retry timer only for
a RetryableConfigError (with the carried delay); on success set the
config valid with an empty message. -/
def internalManage {R : Type} (env : StageEnv R) (m : MgrCfgState R) :
    MgrCfgState R × PassResult R :=
  let res := runStages env 0 m.stages m.rcdr
  match res.err with
  | some e =>
      ({ m with
          stages := res.stages
          rcdr := res.rcdr
          reconfiguring := false
          configValid := false
          configMessage := e.message
          retryTimer := e.retryDelay }, res)
  | none =>
      ({ m with
          stages := res.stages
          rcdr := res.rcdr
          reconfiguring := false
          configValid := true
          configMessage := ""
          retryTimer := none }, res)

/-- The pass skips stage i: its valid flag is set and its fetched
snapshot equals stage.current. -/
def skips {R : Type} (env : StageEnv R) (i : Nat) (st : StageSt) : Prop :=
  st.valid = true ∧ env.fetch i = st.current

/-- The pass proceeds beyond stage i: either it skips it, or its
validation of the fetched snapshot succeeds. -/
def passes {R : Type} (env : StageEnv R) (i : Nat) (st : StageSt) : Prop :=
  skips env i st ∨ env.validate i (env.fetch i) = .ok ()

instance {R : Type} (env : StageEnv R) (i : Nat) (st : StageSt) :
    Decidable (skips env i st) := by unfold skips; infer_instance

/-!
Run-state model of Manager.manage (lines 212-232).  JavaScript is
single-threaded with cooperative await points, so an execution is a
sequence of atomic events: a trigger (an external manage() call running
its synchronous prefix) or the completion of the internalManage pass
currently executing.  The phase records which pass of the in-flight
manage() call is executing; active (this.active) is true exactly when
a manage call is in flight.
-/

/-- Which reconciliation pass of the in-flight manage() call is
currently executing: none (idle), the first internalManage, or the
queued (second) internalManage. -/
inductive Phase where
  | idle
  | firstPass
  | secondPass
deriving DecidableEq, Repr

/-- The orchestrator run state: the phase, the queued flag, and
counters of reconciliation passes started and finished (for stating
the single-flight property). -/
structure RunState where
  phase : Phase
  queued : Bool
  started : Nat
  finished : Nat
deriving DecidableEq, Repr

/-- this.active: a manage() call is in flight. -/
def RunState.active (s : RunState) : Bool := s.phase ≠ Phase.idle

/-- Atomic events of the event loop: an external manage() call
arriving, or the currently executing internalManage pass completing. -/
inductive MEv where
  | trigger
  | finish
deriving DecidableEq, Repr

/-- One atomic step of Manager.manage.  A trigger while active only
sets queued = true and returns; a trigger while idle sets active and
starts the first pass.  When the first pass finishes, if queued was
set it is cleared and the second pass starts; otherwise active is
cleared.  When the second pass finishes, active is cleared without
re-checking queued (lines 225-231 of the source). -/
def mstep (s : RunState) : MEv → RunState
  | .trigger =>
      if s.active then { s with queued := true }
      else { s with phase := Phase.firstPass, started := s.started + 1 }
  | .finish =>
      match s.phase with
      | Phase.idle => s
      | Phase.firstPass =>
          if s.queued then
            { s with phase := Phase.secondPass, queued := false
                     started := s.started + 1, finished := s.finished + 1 }
          else
            { s with phase := Phase.idle, finished := s.finished + 1 }
      | Phase.secondPass =>
          { s with phase := Phase.idle, finished := s.finished + 1 }

/-- Run a sequence of events. -/
def runEvents (s : RunState) (evs : List MEv) : RunState := evs.foldl mstep s

/-- The initial run state of a fresh Manager. -/
def initRun : RunState := ⟨Phase.idle, false, 0, 0⟩

/-!  Crash recovery: Manager.recoverRecorderFromCrash, lines 1062-1095.  -/

/-- The Manager state written by recoverRecorderFromCrash, plus a flag
recording that this.manage() is invoked at its end (line 1094). -/
structure CrashRecoverResult where
  stages : List StageSt
  active : Bool
  queued : Bool
  reconcileRequested : Bool
deriving DecidableEq, Repr

/-- Manager.recoverRecorderFromCrash (the parts acting on the
orchestrator state): mark every stage invalid, reset active and
queued, and request a reconciliation by calling this.manage(). -/
def recoverRecorderFromCrash (stages : List StageSt) : CrashRecoverResult :=
  ⟨stages.map fun st => ⟨false, st.current⟩, false, false, true⟩

/-!  Status computation: Manager.refreshStatus, lines 365-407.  -/

/-- ERecordingState of the capture engine (obsEnums). -/
inductive ERecordingState where
  | Offline
  | Starting
  | Recording
  | Stopping
deriving DecidableEq, Repr

/-- The composite RecStatus values sent to the frontend. -/
inductive RecStatus where
  | Reconfiguring
  | InvalidConfig
  | Overrunning
  | Recording
  | ReadyToRecord
  | WaitingForWoW
deriving DecidableEq, Repr

/-- Mic status is opaque to the orchestrator (polled from the
recorder); modelled as Nat. -/
abbrev MicStatus := Nat

/-- Activity flags of one live log handler (retail / classic / era):
handler.activity is truthy, handler.overrunning. -/
structure HandlerFlags where
  activity : Bool
  overrunning : Bool
deriving DecidableEq, Repr

/-- The Manager state read by refreshStatus.  An absent log handler
(undefined in the source) is modelled as none. -/
structure StatusIn where
  reconfiguring : Bool
  configValid : Bool
  configMessage : String
  retail : Option HandlerFlags
  classic : Option HandlerFlags
  era : Option HandlerFlags
  obsState : ERecordingState
  obsMicState : MicStatus
deriving DecidableEq, Repr

/-- h?.overrunning for one optional handler. -/
def overrunOf (h : Option HandlerFlags) : Bool :=
  match h with
  | some f => f.overrunning
  | none => false

/-- h?.activity for one optional handler. -/
def activityOf (h : Option HandlerFlags) : Bool :=
  match h with
  | some f => f.activity
  | none => false

/-- inOverrun in refreshStatus: OR over the three optional handlers. -/
def anyOverrun (s : StatusIn) : Bool :=
  overrunOf s.retail || overrunOf s.classic || overrunOf s.era

/-- inActivity in refreshStatus: OR over the three optional handlers. -/
def anyActivity (s : StatusIn) : Bool :=
  activityOf s.retail || activityOf s.classic || activityOf s.era

/-- A message sent to the frontend by refreshStatus: either a
recorder-status update (with its message string) or a mic-status
update. -/
inductive Emission where
  | recEv (st : RecStatus) (msg : String)
  | micEv (st : MicStatus)
deriving DecidableEq, Repr

/-- Manager.refreshStatus as the list of frontend emissions it
performs, in order.  Faithful to the source: the reconfiguring and
invalid-config branches return early, before the mic status is
published; all remaining branches fall through to the mic update. -/
def refreshStatus (s : StatusIn) : List Emission :=
  if s.reconfiguring then
    [Emission.recEv RecStatus.Reconfiguring ""]
  else if s.configValid = false then
    [Emission.recEv RecStatus.InvalidConfig s.configMessage]
  else
    (if anyOverrun s then
      [Emission.recEv RecStatus.Overrunning ""]
    else if anyActivity s then
      [Emission.recEv RecStatus.Recording ""]
    else if s.obsState = ERecordingState.Recording then
      [Emission.recEv RecStatus.ReadyToRecord ""]
    else if s.obsState = ERecordingState.Offline
        ∨ s.obsState = ERecordingState.Starting
        ∨ s.obsState = ERecordingState.Stopping then
      [Emission.recEv RecStatus.WaitingForWoW ""]
    else []) ++ [Emission.micEv s.obsMicState]

/-- The composite status: the first recorder-status emission. -/
def compositeOf (es : List Emission) : Option (RecStatus × String) :=
  match es with
  | [] => none
  | Emission.recEv st msg :: _ => some (st, msg)
  | Emission.micEv _ :: rest => compositeOf rest

/-- The mic emissions of a refreshStatus call. -/
def micEmissions (es : List Emission) : List MicStatus :=
  match es with
  | [] => []
  | Emission.micEv st :: rest => st :: micEmissions rest
  | Emission.recEv _ _ :: rest => micEmissions rest

/-- Modelled from the spec, section 4.5: the composite status as the
first-match-wins priority list over the flags.  Used only to compare
against the refreshStatus embedding of the source. -/
def specCompositeStatus (s : StatusIn) : RecStatus × String :=
  if s.reconfiguring then (RecStatus.Reconfiguring, "")
  else if s.configValid = false then (RecStatus.InvalidConfig, s.configMessage)
  else if anyOverrun s then (RecStatus.Overrunning, "")
  else if anyActivity s then (RecStatus.Recording, "")
  else if s.obsState = ERecordingState.Recording then (RecStatus.ReadyToRecord, "")
  else (RecStatus.WaitingForWoW, "")

/-!  Restart scheduler: Manager.restartRecorder, lines 1103-1133, and
the interval set up in the constructor, line 201.  -/

/-- Actions invoked on the Recorder. -/
inductive RecorderAction where
  | stop
  | cleanup
  | start
  | configureAudioSources (c : Snap)
  | removeAudioSources
deriving DecidableEq, Repr

/-- The restart interval from the constructor:
setInterval(() => this.restartRecorder(), 5 * (1000 * 60)). -/
def restartIntervalMs : Nat := 5 * (1000 * 60)

/-- Manager.restartRecorder as the list of recorder actions one tick
performs: return early unless obsState is Recording, no handler is in
an activity, and no handler is overrunning; otherwise stop, cleanup,
start. -/
def restartRecorder (obsState : ERecordingState)
    (retail classic era : Option HandlerFlags) : List RecorderAction :=
  if obsState ≠ ERecordingState.Recording then []
  else if activityOf retail || activityOf classic || activityOf era then []
  else if overrunOf retail || overrunOf classic || overrunOf era then []
  else [RecorderAction.stop, RecorderAction.cleanup, RecorderAction.start]

/-!  Audio configuration: Manager.configureObsAudio (lines 559-563)
and Manager.onWowStarted (lines 467-477).  -/

/-- External recorder state relevant to the audio stage: whether the
poller reports the game process running, and the audio sources
currently attached to the recorder (none when detached). -/
structure RecorderSt where
  wowRunning : Bool
  audioSources : Option Snap
deriving DecidableEq, Repr

/-- Manager.configureObsAudio: attach the audio sources only when the
poller reports WoW running; otherwise do nothing. -/
def configureObsAudio (r : RecorderSt) (config : Snap) : RecorderSt :=
  if r.wowRunning then { r with audioSources := some config } else r

/-- Manager.onWowStarted: fetch the audio config afresh, attach the
audio sources, then start the recorder.  Returns the new recorder
state and the actions performed. -/
def onWowStarted (r : RecorderSt) (freshAudioCfg : Snap) :
    RecorderSt × List RecorderAction :=
  ({ r with audioSources := some freshAudioCfg },
   [RecorderAction.configureAudioSources freshAudioCfg, RecorderAction.start])

/-!  Cloud validation: Manager.validateCloudBaseConfig, lines 645-711.
AuthError, RetryableConfigError and getPromiseBomb live outside the
provided sources; their behaviour is modelled from the spec, section
4.3 and section 7: AuthError marks an authorization-denied response,
RetryableConfigError carries a retry delay, and the promise bomb makes
the race reject after the deadline with a timeout error.  -/

/-- The outcome of Promise.race([client.checkAuth(), promise bomb]):
the check rejects with an authorization-denied AuthError, rejects with
some other (network-shaped) error, the 10 s bomb wins the race, or the
check resolves with the granted read/write capabilities. -/
inductive RaceOutcome where
  | authErrorCase (msg : String)
  | otherErrorCase (msg : String)
  | timeoutCase
  | resolved (read write : Bool)
deriving DecidableEq, Repr

/-- The cloud-related fields of ObsBaseConfig. -/
structure CloudCfg where
  cloudAccountName : String
  cloudAccountPassword : String
  cloudGuildName : String
  cloudUpload : Bool
deriving DecidableEq, Repr

/-- Manager.validateCloudBaseConfig: reject empty account name,
password or guild name; race checkAuth against a 10 s bomb; rethrow an
AuthError as-is (terminal, no retry), turn any other rejection or the
timeout into a RetryableConfigError with a 10000 ms delay; on a
resolved check require read, and write when cloudUpload is set. -/
def validateCloudBaseConfig (config : CloudCfg) (race : RaceOutcome) :
    Except CfgError Unit :=
  if config.cloudAccountName = "" then
    Except.error (CfgError.terminal "Account name must not be empty.")
  else if config.cloudAccountPassword = "" then
    Except.error (CfgError.terminal "Password must not be empty.")
  else if config.cloudGuildName = "" then
    Except.error (CfgError.terminal "Guild name must not be empty.")
  else
    match race with
    | RaceOutcome.authErrorCase msg => Except.error (CfgError.auth msg)
    | RaceOutcome.otherErrorCase _ =>
        Except.error
          (CfgError.retryable "Failed to authenticate with the cloud store." 10000)
    | RaceOutcome.timeoutCase =>
        Except.error
          (CfgError.retryable "Failed to authenticate with the cloud store." 10000)
    | RaceOutcome.resolved read write =>
        if read = false then
          Except.error (CfgError.terminal "User is not authorized to access the guild.")
        else if write = false ∧ config.cloudUpload = true then
          Except.error (CfgError.terminal "User is not authorized to upload to the guild.")
        else Except.ok ()

/-!  Helper lemmas about the run-state model.  -/

/-- A manage() call arriving while a pass is in flight only sets the
queued flag. -/
theorem mstep_trigger_active (s : RunState) (h : s.active = true) :
    mstep s MEv.trigger = { s with queued := true } := by
  simp [mstep, h]

/-- Once queued is set and a pass is in flight, further triggers are
no-ops. -/
theorem runEvents_trigger_idem (n : Nat) :
    ∀ s : RunState, s.active = true → s.queued = true →
    runEvents s (List.replicate n MEv.trigger) = s := by
  induction n with
  | zero => intro s _ _; rfl
  | succ k ih =>
      intro s ha hq
      have hs : mstep s MEv.trigger = s := by
        rw [mstep_trigger_active s ha]
        cases s
        simp_all
      show runEvents (mstep s MEv.trigger) (List.replicate k MEv.trigger) = s
      rw [hs]
      exact ih s ha hq

/-- The pass-count balance invariant: when idle, all started passes
have finished; when a pass is in flight, exactly one has not. -/
def passBalance (s : RunState) : Prop :=
  (s.phase = Phase.idle → s.started = s.finished) ∧
  (s.phase ≠ Phase.idle → s.started = s.finished + 1)

theorem mstep_preserves_balance (s : RunState) (ev : MEv)
    (h : passBalance s) : passBalance (mstep s ev) := by
  obtain ⟨h1, h2⟩ := h
  cases ev with
  | trigger =>
      by_cases ha : s.active = true
      · simpa [mstep, ha, passBalance] using And.intro h1 h2
      · have hidle : s.phase = Phase.idle := by
          by_contra hne
          exact ha (by simp [RunState.active, hne])
        have := h1 hidle
        simp [mstep, RunState.active, hidle, passBalance, this]
  | finish =>
      cases hp : s.phase with
      | idle =>
          have hs := h1 hp
          simp [mstep, hp, passBalance, hs]
      | firstPass =>
          have hs := h2 (by simp [hp])
          by_cases hq : s.queued = true
          · simp [mstep, hp, hq, passBalance, hs]
          · simp [mstep, hp, hq, passBalance, hs]
      | secondPass =>
          have hs := h2 (by simp [hp])
          simp [mstep, hp, passBalance, hs]

theorem runEvents_preserves_balance (evs : List MEv) :
    ∀ s : RunState, passBalance s → passBalance (runEvents s evs) := by
  induction evs with
  | nil => intro s h; exact h
  | cons e evs ih =>
      intro s h
      exact ih (mstep s e) (mstep_preserves_balance s e h)

/-- C1: for every N >= 1 manage() calls arriving while the first
reconciliation pass is executing, each call only sets queued = true and
starts no pass (the run state after any M >= 1 such calls is exactly
the original with queued set); when the in-progress pass completes,
exactly one additional pass starts, with queued cleared the instant it
begins; and when that pass completes the manager goes idle (active
false) having run exactly one pass more than before — overlapping
triggers never run a concurrent pass and never owe more than one extra
pass. -/
theorem manage_coalescing (s : RunState) (n : Nat)
    (hphase : s.phase = Phase.firstPass) (hn : 1 ≤ n) :
    (∀ m : Nat, 1 ≤ m →
      runEvents s (List.replicate m MEv.trigger) = { s with queued := true }) ∧
    (runEvents s (List.replicate n MEv.trigger)).started = s.started ∧
    mstep (runEvents s (List.replicate n MEv.trigger)) MEv.finish =
      { s with phase := Phase.secondPass, queued := false
               started := s.started + 1, finished := s.finished + 1 } ∧
    (mstep (mstep (runEvents s (List.replicate n MEv.trigger)) MEv.finish)
        MEv.finish).phase = Phase.idle ∧
    (mstep (mstep (runEvents s (List.replicate n MEv.trigger)) MEv.finish)
        MEv.finish).started = s.started + 1 := by
  have hact : s.active = true := by simp [RunState.active, hphase]
  have key : ∀ m : Nat, 1 ≤ m →
      runEvents s (List.replicate m MEv.trigger) = { s with queued := true } := by
    intro m hm
    obtain ⟨k, rfl⟩ := Nat.exists_eq_add_of_le hm
    rw [List.replicate_add, List.replicate_one]
    show runEvents (runEvents s [MEv.trigger]) (List.replicate k MEv.trigger) =
      { s with queued := true }
    have h1 : runEvents s [MEv.trigger] = { s with queued := true } := by
      show mstep s MEv.trigger = { s with queued := true }
      exact mstep_trigger_active s hact
    rw [h1]
    exact runEvents_trigger_idem k _ (by simp [RunState.active, hphase]) rfl
  have hrun := key n hn
  refine ⟨key, ?_, ?_, ?_, ?_⟩
  · rw [hrun]
  · rw [hrun]; simp [mstep, hphase]
  · rw [hrun]; simp [mstep, hphase]
  · rw [hrun]; simp [mstep, hphase]

/-- Witness for manage_coalescing at a concrete run state and N = 3. -/
theorem manage_coalescing_witness :
    (∀ m : Nat, 1 ≤ m →
      runEvents ⟨Phase.firstPass, false, 1, 0⟩ (List.replicate m MEv.trigger) =
        { (⟨Phase.firstPass, false, 1, 0⟩ : RunState) with queued := true }) ∧
    (runEvents ⟨Phase.firstPass, false, 1, 0⟩
        (List.replicate 3 MEv.trigger)).started = 1 ∧
    mstep (runEvents ⟨Phase.firstPass, false, 1, 0⟩
        (List.replicate 3 MEv.trigger)) MEv.finish =
      { (⟨Phase.firstPass, false, 1, 0⟩ : RunState) with
          phase := Phase.secondPass, queued := false
          started := 2, finished := 1 } ∧
    (mstep (mstep (runEvents ⟨Phase.firstPass, false, 1, 0⟩
        (List.replicate 3 MEv.trigger)) MEv.finish) MEv.finish).phase =
      Phase.idle ∧
    (mstep (mstep (runEvents ⟨Phase.firstPass, false, 1, 0⟩
        (List.replicate 3 MEv.trigger)) MEv.finish) MEv.finish).started = 2 :=
  manage_coalescing ⟨Phase.firstPass, false, 1, 0⟩ 3 rfl (by decide)

/-- C2 counterexample: the claimed invariant that queued is true only
while active is true fails.  Interleaving: a trigger starts the first
pass, a second trigger queues a pass, the first pass finishes (the
queued pass begins), a third trigger arrives during the queued pass,
and the queued pass finishes.  manage() then sets active = false
without re-checking queued, leaving queued = true while active is
false. -/
theorem runstate_queued_only_while_active_cex :
    (runEvents initRun
      [MEv.trigger, MEv.trigger, MEv.finish, MEv.trigger, MEv.finish]).active
        = false ∧
    (runEvents initRun
      [MEv.trigger, MEv.trigger, MEv.finish, MEv.trigger, MEv.finish]).queued
        = true := by decide

/-- C2 amended: under every interleaving of manage() calls, at most one
reconciliation pass executes at any time (the started/finished pass
counts stay balanced: equal when idle, off by exactly one while a pass
is in flight); queued is cleared the instant the queued pass begins;
and crash recovery resets active and queued to false.  However, a
manage() call that arrives while the queued (second) pass is executing
leaves queued = true after active becomes false, so queued is not only
true while active is true. -/
theorem runstate_invariant_amended :
    (∀ evs : List MEv, passBalance (runEvents initRun evs)) ∧
    (∀ s : RunState, s.phase = Phase.firstPass → s.queued = true →
      (mstep s MEv.finish).queued = false ∧
      (mstep s MEv.finish).phase = Phase.secondPass) ∧
    (∀ sts : List StageSt,
      (recoverRecorderFromCrash sts).active = false ∧
      (recoverRecorderFromCrash sts).queued = false) := by
  refine ⟨?_, ?_, ?_⟩
  · intro evs
    exact runEvents_preserves_balance evs initRun (by simp [initRun, passBalance])
  · intro s hp hq
    constructor <;> simp [mstep, hp, hq]
  · intro sts
    constructor <;> rfl

/-- Witness for runstate_invariant_amended: the queued-pass-begin
component applied at a concrete run state. -/
theorem runstate_invariant_amended_witness :
    (mstep ⟨Phase.firstPass, true, 2, 1⟩ MEv.finish).queued = false ∧
    (mstep ⟨Phase.firstPass, true, 2, 1⟩ MEv.finish).phase = Phase.secondPass :=
  runstate_invariant_amended.2.1 ⟨Phase.firstPass, true, 2, 1⟩ rfl rfl

/-!  Helper lemmas about the stage pipeline.  -/

/-- If every stage skips (valid and unchanged snapshot), the pass
fetches each stage but validates and applies none, leaves the table
unchanged, and reports no error. -/
theorem runStages_all_skip {R : Type} (env : StageEnv R) :
    ∀ (sts : List StageSt) (i : Nat) (r : R),
    (∀ j st, sts.get? j = some st → skips env (i + j) st) →
    runStages env i sts r = ⟨sts, r, none, List.range' i sts.length, [], []⟩ := by
  intro sts
  induction sts with
  | nil => intro i r _; rfl
  | cons st rest ih =>
      intro i r h
      have h0 : skips env i st := by simpa using h 0 st rfl
      have hrest : ∀ j stj, rest.get? j = some stj → skips env (i + 1 + j) stj := by
        intro j stj hj
        have := h (j + 1) stj (by simpa using hj)
        simpa [Nat.add_assoc, Nat.add_comm 1 j] using this
      obtain ⟨hv, hc⟩ := h0
      simp only [runStages, hv, hc, and_self, if_true, ih (i + 1) r hrest]
      simp [List.range'_succ]

/-- If the stages before position k all pass and stage k neither skips
nor validates, the pass aborts at stage k: the error is reported,
stage k keeps its current snapshot with valid = false, all later
stages are returned untouched, every fetched or validated index is at
most k positions in, and every applied index is strictly before k. -/
theorem runStages_abort {R : Type} (env : StageEnv R) :
    ∀ (sts : List StageSt) (k i : Nat) (r : R) (st : StageSt) (e : CfgError),
    sts.get? k = some st →
    (∀ j stj, j < k → sts.get? j = some stj → passes env (i + j) stj) →
    ¬ skips env (i + k) st →
    env.validate (i + k) (env.fetch (i + k)) = Except.error e →
    (runStages env i sts r).err = some e ∧
    (runStages env i sts r).stages.get? k = some ⟨false, st.current⟩ ∧
    (runStages env i sts r).stages.drop (k + 1) = sts.drop (k + 1) ∧
    (∀ j, j ∈ (runStages env i sts r).fetched → j ≤ i + k) ∧
    (∀ j, j ∈ (runStages env i sts r).validated → j ≤ i + k) ∧
    (∀ j, j ∈ (runStages env i sts r).applied → j < i + k) := by
  intro sts
  induction sts with
  | nil => intro k i r st e hk; simp at hk
  | cons st0 rest ih =>
      intro k i r st e hk hpre hnoskip hval
      cases k with
      | zero =>
          have hst : st0 = st := by simpa using hk
          subst hst
          have hns : ¬ (st0.valid = true ∧ env.fetch i = st0.current) := by
            simpa [skips] using hnoskip
          have hv : env.validate i (env.fetch i) = Except.error e := by
            simpa using hval
          simp only [runStages, hns, if_false, hv]
          refine ⟨?_, ?_, ?_, ?_, ?_, ?_⟩ <;> simp
      | succ k' =>
          have hk' : rest.get? k' = some st := by simpa using hk
          have hpass0 : passes env i st0 := by
            have := hpre 0 st0 (Nat.succ_pos k') rfl
            simpa using this
          have hpre' : ∀ j stj, j < k' → rest.get? j = some stj →
              passes env (i + 1 + j) stj := by
            intro j stj hj hg
            have := hpre (j + 1) stj (Nat.succ_lt_succ hj) (by simpa using hg)
            simpa [Nat.add_assoc, Nat.add_comm 1 j] using this
          have hnoskip' : ¬ skips env (i + 1 + k') st := by
            simpa [Nat.add_assoc, Nat.add_comm 1 k'] using hnoskip
          have hval' : env.validate (i + 1 + k') (env.fetch (i + 1 + k')) =
              Except.error e := by
            simpa [Nat.add_assoc, Nat.add_comm 1 k'] using hval
          have harith : i + 1 + k' = i + (k' + 1) := by omega
          by_cases hsk : st0.valid = true ∧ env.fetch i = st0.current
          · have res := ih k' (i + 1) r st e hk' hpre' hnoskip' hval'
            obtain ⟨r1, r2, r3, r4, r5, r6⟩ := res
            simp only [runStages, hsk, and_self, if_true]
            refine ⟨r1, by simpa using r2, by simpa using r3, ?_, ?_, ?_⟩
            · intro j hj
              simp only [List.mem_cons] at hj
              rcases hj with rfl | hj
              · omega
              · have := r4 j hj; omega
            · intro j hj
              have := r5 j hj; omega
            · intro j hj
              have := r6 j hj; omega
          · have hok : env.validate i (env.fetch i) = Except.ok () := by
              rcases hpass0 with hs | ho
              · exact absurd hs hsk
              · exact ho
            have res := ih k' (i + 1) (env.applyFx i (env.fetch i) r) st e
              hk' hpre' hnoskip' hval'
            obtain ⟨r1, r2, r3, r4, r5, r6⟩ := res
            simp only [runStages, hsk, if_false, hok]
            refine ⟨r1, by simpa using r2, by simpa using r3, ?_, ?_, ?_⟩
            · intro j hj
              simp only [List.mem_cons] at hj
              rcases hj with rfl | hj
              · omega
              · have := r4 j hj; omega
            · intro j hj
              simp only [List.mem_cons] at hj
              rcases hj with rfl | hj
              · omega
              · have := r5 j hj; omega
            · intro j hj
              simp only [List.mem_cons] at hj
              rcases hj with rfl | hj
              · omega
              · have := r6 j hj; omega

/-- A stage whose valid flag is set and whose fetched snapshot equals
its current snapshot is returned unchanged by a pass, whatever happens
at the other stages. -/
theorem runStages_keeps_valid {R : Type} (env : StageEnv R) :
    ∀ (sts : List StageSt) (k i : Nat) (r : R) (st : StageSt),
    sts.get? k = some st → st.valid = true → env.fetch (i + k) = st.current →
    (runStages env i sts r).stages.get? k = some st := by
  intro sts
  induction sts with
  | nil => intro k i r st hk; simp at hk
  | cons st0 rest ih =>
      intro k i r st hk hv hc
      cases k with
      | zero =>
          have hst : st0 = st := by simpa using hk
          subst hst
          have hsk : st0.valid = true ∧ env.fetch i = st0.current := by
            exact ⟨hv, by simpa using hc⟩
          simp only [runStages, hsk, and_self, if_true]
          rfl
      | succ k' =>
          have hk' : rest.get? k' = some st := by simpa using hk
          have hc' : env.fetch (i + 1 + k') = st.current := by
            simpa [Nat.add_assoc, Nat.add_comm 1 k'] using hc
          by_cases hsk : st0.valid = true ∧ env.fetch i = st0.current
          · simp only [runStages, hsk, and_self, if_true]
            simpa using ih k' (i + 1) r st hk' hv hc'
          · cases hvr : env.validate i (env.fetch i) with
            | error e =>
                simp only [runStages, hsk, if_false, hvr]
                simpa using hk'
            | ok u =>
                cases u
                simp only [runStages, hsk, if_false, hvr]
                simpa using ih k' (i + 1) (env.applyFx i (env.fetch i) r) st hk' hv hc'

/-- When every stage is invalid and every validation succeeds, the
pass validates and applies every stage, in declaration order, and
leaves every stage valid with no error. -/
theorem runStages_full_run {R : Type} (env : StageEnv R) :
    ∀ (sts : List StageSt) (i : Nat) (r : R),
    (∀ j st, sts.get? j = some st → st.valid = false) →
    (∀ j, env.validate j (env.fetch j) = Except.ok ()) →
    (runStages env i sts r).validated = List.range' i sts.length ∧
    (runStages env i sts r).applied = List.range' i sts.length ∧
    (runStages env i sts r).err = none ∧
    (∀ j st, (runStages env i sts r).stages.get? j = some st → st.valid = true) := by
  intro sts
  induction sts with
  | nil =>
      intro i r _ _
      refine ⟨rfl, rfl, rfl, ?_⟩
      intro j st h
      simp [runStages] at h
  | cons st0 rest ih =>
      intro i r hinv hok
      have h0 : st0.valid = false := hinv 0 st0 rfl
      have hsk : ¬ (st0.valid = true ∧ env.fetch i = st0.current) := by
        simp [h0]
      have hrest : ∀ j st, rest.get? j = some st → st.valid = false := by
        intro j st hj
        exact hinv (j + 1) st (by simpa using hj)
      have res := ih (i + 1) (env.applyFx i (env.fetch i) r) hrest hok
      obtain ⟨r1, r2, r3, r4⟩ := res
      simp only [runStages, hsk, if_false, hok i]
      refine ⟨?_, ?_, r3, ?_⟩
      · simp [r1, List.range'_succ]
      · simp [r2, List.range'_succ]
      · intro j st hj
        cases j with
        | zero =>
            simp only [List.get?_cons_zero, Option.some.injEq] at hj
            rw [← hj]
        | succ j' => exact r4 j' st (by simpa using hj)

/-!  Claim theorems about the reconciliation pass.  -/

/-- C3: if stage k's validate throws during a reconciliation pass
(the stages before it pass and stage k is not skipped), the pass
aborts at stage k: stage k's valid flag is false and its current
snapshot is unchanged, configValid is set false with the error
recorded as the message, and stages after k are neither fetched,
validated nor applied in that pass — they are returned untouched,
regardless of their snapshots. -/
theorem stage_validation_abort {R : Type} (env : StageEnv R) (m : MgrCfgState R)
    (k : Nat) (st : StageSt) (e : CfgError)
    (hk : m.stages.get? k = some st)
    (hpre : ∀ j stj, j < k → m.stages.get? j = some stj → passes env j stj)
    (hnoskip : ¬ skips env k st)
    (hval : env.validate k (env.fetch k) = Except.error e) :
    (internalManage env m).1.configValid = false ∧
    (internalManage env m).1.configMessage = e.message ∧
    (internalManage env m).1.stages.get? k = some ⟨false, st.current⟩ ∧
    (internalManage env m).1.stages.drop (k + 1) = m.stages.drop (k + 1) ∧
    (∀ j, j ∈ (internalManage env m).2.fetched → j ≤ k) ∧
    (∀ j, j ∈ (internalManage env m).2.validated → j ≤ k) ∧
    (∀ j, j ∈ (internalManage env m).2.applied → j < k) := by
  have hpre0 : ∀ j stj, j < k → m.stages.get? j = some stj →
      passes env (0 + j) stj := by
    intro j stj hj hg
    simpa [Nat.zero_add] using hpre j stj hj hg
  have hns0 : ¬ skips env (0 + k) st := by simpa [Nat.zero_add] using hnoskip
  have hv0 : env.validate (0 + k) (env.fetch (0 + k)) = Except.error e := by
    simpa [Nat.zero_add] using hval
  have res := runStages_abort env m.stages k 0 m.rcdr st e hk hpre0 hns0 hv0
  obtain ⟨r1, r2, r3, r4, r5, r6⟩ := res
  simp only [internalManage, r1]
  refine ⟨trivial, trivial, r2, r3, ?_, ?_, ?_⟩
  · intro j hj; have := r4 j hj; omega
  · intro j hj; have := r5 j hj; omega
  · intro j hj; have := r6 j hj; omega

/-- Witness for stage_validation_abort: a three-stage table where
stage 0 validates, stage 1 throws, and stage 2's snapshot has changed;
stage 2 is untouched. -/
theorem stage_validation_abort_witness :
    (internalManage
      (⟨fun i => i + 10,
        fun i _ => if i = 1 then Except.error (CfgError.terminal "boom")
                   else Except.ok (),
        fun _ _ r => r⟩ : StageEnv Unit)
      ⟨[⟨false, 0⟩, ⟨false, 1⟩, ⟨true, 2⟩], true, "", false, some 7, ()⟩).1.configValid
        = false ∧
    (internalManage
      (⟨fun i => i + 10,
        fun i _ => if i = 1 then Except.error (CfgError.terminal "boom")
                   else Except.ok (),
        fun _ _ r => r⟩ : StageEnv Unit)
      ⟨[⟨false, 0⟩, ⟨false, 1⟩, ⟨true, 2⟩], true, "", false, some 7, ()⟩).1.configMessage
        = (CfgError.terminal "boom").message ∧
    (internalManage
      (⟨fun i => i + 10,
        fun i _ => if i = 1 then Except.error (CfgError.terminal "boom")
                   else Except.ok (),
        fun _ _ r => r⟩ : StageEnv Unit)
      ⟨[⟨false, 0⟩, ⟨false, 1⟩, ⟨true, 2⟩], true, "", false, some 7, ()⟩).1.stages.get? 1
        = some ⟨false, (⟨false, 1⟩ : StageSt).current⟩ ∧
    (internalManage
      (⟨fun i => i + 10,
        fun i _ => if i = 1 then Except.error (CfgError.terminal "boom")
                   else Except.ok (),
        fun _ _ r => r⟩ : StageEnv Unit)
      ⟨[⟨false, 0⟩, ⟨false, 1⟩, ⟨true, 2⟩], true, "", false, some 7, ()⟩).1.stages.drop 2
        = ([⟨false, 0⟩, ⟨false, 1⟩, ⟨true, 2⟩] : List StageSt).drop 2 ∧
    (∀ j, j ∈ (internalManage
      (⟨fun i => i + 10,
        fun i _ => if i = 1 then Except.error (CfgError.terminal "boom")
                   else Except.ok (),
        fun _ _ r => r⟩ : StageEnv Unit)
      ⟨[⟨false, 0⟩, ⟨false, 1⟩, ⟨true, 2⟩], true, "", false, some 7, ()⟩).2.fetched →
        j ≤ 1) ∧
    (∀ j, j ∈ (internalManage
      (⟨fun i => i + 10,
        fun i _ => if i = 1 then Except.error (CfgError.terminal "boom")
                   else Except.ok (),
        fun _ _ r => r⟩ : StageEnv Unit)
      ⟨[⟨false, 0⟩, ⟨false, 1⟩, ⟨true, 2⟩], true, "", false, some 7, ()⟩).2.validated →
        j ≤ 1) ∧
    (∀ j, j ∈ (internalManage
      (⟨fun i => i + 10,
        fun i _ => if i = 1 then Except.error (CfgError.terminal "boom")
                   else Except.ok (),
        fun _ _ r => r⟩ : StageEnv Unit)
      ⟨[⟨false, 0⟩, ⟨false, 1⟩, ⟨true, 2⟩], true, "", false, some 7, ()⟩).2.applied →
        j < 1) :=
  stage_validation_abort
    (⟨fun i => i + 10,
      fun i _ => if i = 1 then Except.error (CfgError.terminal "boom")
                 else Except.ok (),
      fun _ _ r => r⟩ : StageEnv Unit)
    ⟨[⟨false, 0⟩, ⟨false, 1⟩, ⟨true, 2⟩], true, "", false, some 7, ()⟩
    1 ⟨false, 1⟩ (CfgError.terminal "boom") rfl
    (by
      intro j stj hj hg
      interval_cases j
      right
      rfl)
    (by intro h; exact absurd h.1 (by decide))
    rfl

/-- C8: if every stage's fetched snapshot equals its current snapshot
and every stage is already valid, the pass performs zero validate and
zero configure calls, leaves the stage table unchanged, and ends with
configValid true and an empty message. -/
theorem reconcile_idempotent_skip {R : Type} (env : StageEnv R)
    (m : MgrCfgState R)
    (h : ∀ j st, m.stages.get? j = some st →
      st.valid = true ∧ env.fetch j = st.current) :
    (internalManage env m).1.stages = m.stages ∧
    (internalManage env m).2.validated = [] ∧
    (internalManage env m).2.applied = [] ∧
    (internalManage env m).1.configValid = true ∧
    (internalManage env m).1.configMessage = "" := by
  have h0 : ∀ j st, m.stages.get? j = some st → skips env (0 + j) st := by
    intro j st hj
    have := h j st hj
    simpa [skips, Nat.zero_add] using this
  have res := runStages_all_skip env m.stages 0 m.rcdr h0
  simp [internalManage, res]

/-- Witness for reconcile_idempotent_skip: a two-stage table, both
valid with unchanged snapshots. -/
theorem reconcile_idempotent_skip_witness :
    (internalManage
      (⟨fun i => i + 10, fun _ _ => Except.ok (), fun _ _ r => r⟩ : StageEnv Unit)
      ⟨[⟨true, 10⟩, ⟨true, 11⟩], false, "old", false, some 3, ()⟩).1.stages
        = [⟨true, 10⟩, ⟨true, 11⟩] ∧
    (internalManage
      (⟨fun i => i + 10, fun _ _ => Except.ok (), fun _ _ r => r⟩ : StageEnv Unit)
      ⟨[⟨true, 10⟩, ⟨true, 11⟩], false, "old", false, some 3, ()⟩).2.validated = [] ∧
    (internalManage
      (⟨fun i => i + 10, fun _ _ => Except.ok (), fun _ _ r => r⟩ : StageEnv Unit)
      ⟨[⟨true, 10⟩, ⟨true, 11⟩], false, "old", false, some 3, ()⟩).2.applied = [] ∧
    (internalManage
      (⟨fun i => i + 10, fun _ _ => Except.ok (), fun _ _ r => r⟩ : StageEnv Unit)
      ⟨[⟨true, 10⟩, ⟨true, 11⟩], false, "old", false, some 3, ()⟩).1.configValid = true ∧
    (internalManage
      (⟨fun i => i + 10, fun _ _ => Except.ok (), fun _ _ r => r⟩ : StageEnv Unit)
      ⟨[⟨true, 10⟩, ⟨true, 11⟩], false, "old", false, some 3, ()⟩).1.configMessage = "" :=
  reconcile_idempotent_skip
    (⟨fun i => i + 10, fun _ _ => Except.ok (), fun _ _ r => r⟩ : StageEnv Unit)
    ⟨[⟨true, 10⟩, ⟨true, 11⟩], false, "old", false, some 3, ()⟩
    (by
      intro j st hj
      match j, hj with
      | 0, hj =>
          simp only [List.get?_cons_zero, Option.some.injEq] at hj
          rw [← hj]; exact ⟨rfl, rfl⟩
      | 1, hj =>
          simp only [List.get?_cons_succ, List.get?_cons_zero,
            Option.some.injEq] at hj
          rw [← hj]; exact ⟨rfl, rfl⟩
      | Nat.succ (Nat.succ j'), hj => simp at hj)

/-- C4: after recoverRecorderFromCrash every stage's valid flag is
false, active and queued are reset to false, and a reconciliation is
immediately requested; the very next pass (all validations succeeding,
as after a rebuild from defaults) re-validates and re-applies every
stage in original declaration order and leaves the config valid; and
crash recovery is the only path clearing all validity at once — a
normal pass returns unchanged any stage that was valid with an
unchanged snapshot. -/
theorem crash_recovery_full_revalidation {R : Type} (env : StageEnv R)
    (sts : List StageSt) (m : MgrCfgState R)
    (hm : m.stages = (recoverRecorderFromCrash sts).stages)
    (hok : ∀ j, env.validate j (env.fetch j) = Except.ok ()) :
    (∀ j st, (recoverRecorderFromCrash sts).stages.get? j = some st →
      st.valid = false) ∧
    (recoverRecorderFromCrash sts).active = false ∧
    (recoverRecorderFromCrash sts).queued = false ∧
    (recoverRecorderFromCrash sts).reconcileRequested = true ∧
    (internalManage env m).2.validated = List.range m.stages.length ∧
    (internalManage env m).2.applied = List.range m.stages.length ∧
    (internalManage env m).1.configValid = true ∧
    (∀ j st, (internalManage env m).1.stages.get? j = some st →
      st.valid = true) ∧
    (∀ (env2 : StageEnv R) (sts2 : List StageSt) (r : R) (k : Nat)
        (st : StageSt),
      sts2.get? k = some st → st.valid = true → env2.fetch k = st.current →
      (runStages env2 0 sts2 r).stages.get? k = some st) := by
  have hinv : ∀ j st, m.stages.get? j = some st → st.valid = false := by
    intro j st hj
    rw [hm] at hj
    simp only [recoverRecorderFromCrash, List.get?_map] at hj
    cases hmap : sts.get? j with
    | none => rw [hmap] at hj; simp at hj
    | some st0 =>
        rw [hmap] at hj
        simp only [Option.map_some', Option.some.injEq] at hj
        rw [← hj]
  have res := runStages_full_run env m.stages 0 m.rcdr hinv hok
  obtain ⟨r1, r2, r3, r4⟩ := res
  refine ⟨?_, rfl, rfl, rfl, ?_, ?_, ?_, ?_, ?_⟩
  · intro j st hj
    simp only [recoverRecorderFromCrash, List.get?_map] at hj
    cases hmap : sts.get? j with
    | none => rw [hmap] at hj; simp at hj
    | some st0 =>
        rw [hmap] at hj
        simp only [Option.map_some', Option.some.injEq] at hj
        rw [← hj]
  · simp only [internalManage]
    rw [r3]
    simpa [List.range_eq_range'] using r1
  · simp only [internalManage]
    rw [r3]
    simpa [List.range_eq_range'] using r2
  · simp only [internalManage]
    rw [r3]
  · intro j st hj
    simp only [internalManage] at hj
    rw [r3] at hj
    exact r4 j st hj
  · intro env2 sts2 r k st hk hv hc
    exact runStages_keeps_valid env2 sts2 k 0 r st hk hv (by simpa using hc)

/-- Witness for crash_recovery_full_revalidation: recovery of a
two-stage table followed by a pass whose validations all succeed. -/
theorem crash_recovery_full_revalidation_witness :
    (∀ j st, (recoverRecorderFromCrash [⟨true, 5⟩, ⟨true, 6⟩]).stages.get? j =
        some st → st.valid = false) ∧
    (recoverRecorderFromCrash [⟨true, 5⟩, ⟨true, 6⟩]).active = false ∧
    (recoverRecorderFromCrash [⟨true, 5⟩, ⟨true, 6⟩]).queued = false ∧
    (recoverRecorderFromCrash [⟨true, 5⟩, ⟨true, 6⟩]).reconcileRequested = true ∧
    (internalManage
      (⟨fun i => i + 20, fun _ _ => Except.ok (), fun _ _ r => r⟩ : StageEnv Unit)
      ⟨(recoverRecorderFromCrash [⟨true, 5⟩, ⟨true, 6⟩]).stages,
        true, "", false, none, ()⟩).2.validated =
      List.range (⟨(recoverRecorderFromCrash [⟨true, 5⟩, ⟨true, 6⟩]).stages,
        true, "", false, none, ()⟩ : MgrCfgState Unit).stages.length ∧
    (internalManage
      (⟨fun i => i + 20, fun _ _ => Except.ok (), fun _ _ r => r⟩ : StageEnv Unit)
      ⟨(recoverRecorderFromCrash [⟨true, 5⟩, ⟨true, 6⟩]).stages,
        true, "", false, none, ()⟩).2.applied =
      List.range (⟨(recoverRecorderFromCrash [⟨true, 5⟩, ⟨true, 6⟩]).stages,
        true, "", false, none, ()⟩ : MgrCfgState Unit).stages.length ∧
    (internalManage
      (⟨fun i => i + 20, fun _ _ => Except.ok (), fun _ _ r => r⟩ : StageEnv Unit)
      ⟨(recoverRecorderFromCrash [⟨true, 5⟩, ⟨true, 6⟩]).stages,
        true, "", false, none, ()⟩).1.configValid = true ∧
    (∀ j st, (internalManage
      (⟨fun i => i + 20, fun _ _ => Except.ok (), fun _ _ r => r⟩ : StageEnv Unit)
      ⟨(recoverRecorderFromCrash [⟨true, 5⟩, ⟨true, 6⟩]).stages,
        true, "", false, none, ()⟩).1.stages.get? j = some st →
      st.valid = true) ∧
    (∀ (env2 : StageEnv Unit) (sts2 : List StageSt) (r : Unit) (k : Nat)
        (st : StageSt),
      sts2.get? k = some st → st.valid = true → env2.fetch k = st.current →
      (runStages env2 0 sts2 r).stages.get? k = some st) :=
  crash_recovery_full_revalidation
    (⟨fun i => i + 20, fun _ _ => Except.ok (), fun _ _ r => r⟩ : StageEnv Unit)
    [⟨true, 5⟩, ⟨true, 6⟩]
    ⟨(recoverRecorderFromCrash [⟨true, 5⟩, ⟨true, 6⟩]).stages,
      true, "", false, none, ()⟩
    rfl (fun _ => rfl)

/-- Single-stage environment whose only validation step is the cloud
base validation with a fixed race outcome (the obsBase stage of the
source reduced to its cloud check); the fetched snapshot and the apply
are immaterial to the retry policy. -/
def cloudEnv (cfg : CloudCfg) (race : RaceOutcome) : StageEnv Unit :=
  ⟨fun _ => 0, fun _ _ => validateCloudBaseConfig cfg race, fun _ _ r => r⟩

/-- C5: a validation failure with a RetryableConfigError — the cloud
auth race timing out after 10 s or the check failing with a
network-shaped error — makes internalManage schedule the single
one-shot retry timer (which re-invokes manage()) with the error's
carried 10000 ms delay; a failure with a non-retryable error — in
particular an authorization-denied AuthError, which
validateCloudBaseConfig rethrows as terminal — schedules no retry
timer and leaves the config invalid. -/
theorem cloud_auth_retry_policy (cfg : CloudCfg) (st : StageSt)
    (m : MgrCfgState Unit) (race : RaceOutcome)
    (hname : cfg.cloudAccountName ≠ "")
    (hpass : cfg.cloudAccountPassword ≠ "")
    (hguild : cfg.cloudGuildName ≠ "")
    (hstage : m.stages = [st]) (hinvalid : st.valid = false) :
    (validateCloudBaseConfig cfg RaceOutcome.timeoutCase =
      Except.error
        (CfgError.retryable "Failed to authenticate with the cloud store." 10000)) ∧
    (∀ msg, validateCloudBaseConfig cfg (RaceOutcome.otherErrorCase msg) =
      Except.error
        (CfgError.retryable "Failed to authenticate with the cloud store." 10000)) ∧
    (∀ msg, validateCloudBaseConfig cfg (RaceOutcome.authErrorCase msg) =
      Except.error (CfgError.auth msg) ∧
      CfgError.isRetryable (CfgError.auth msg) = false) ∧
    ((race = RaceOutcome.timeoutCase ∨
        (∃ msg, race = RaceOutcome.otherErrorCase msg)) →
      (internalManage (cloudEnv cfg race) m).1.retryTimer = some 10000 ∧
      (internalManage (cloudEnv cfg race) m).1.configValid = false ∧
      (internalManage (cloudEnv cfg race) m).1.configMessage =
        "Failed to authenticate with the cloud store.") ∧
    (∀ msg, race = RaceOutcome.authErrorCase msg →
      (internalManage (cloudEnv cfg race) m).1.retryTimer = none ∧
      (internalManage (cloudEnv cfg race) m).1.configValid = false ∧
      (internalManage (cloudEnv cfg race) m).1.configMessage = msg) := by
  have hns : ¬ (st.valid = true ∧ (cloudEnv cfg race).fetch 0 = st.current) := by
    simp [hinvalid]
  have habort : ∀ e, validateCloudBaseConfig cfg race = Except.error e →
      (internalManage (cloudEnv cfg race) m).1.retryTimer = e.retryDelay ∧
      (internalManage (cloudEnv cfg race) m).1.configValid = false ∧
      (internalManage (cloudEnv cfg race) m).1.configMessage = e.message := by
    intro e he
    have hv : (cloudEnv cfg race).validate 0 ((cloudEnv cfg race).fetch 0) =
        Except.error e := he
    have hrun : (runStages (cloudEnv cfg race) 0 m.stages m.rcdr).err = some e := by
      rw [hstage]
      simp only [runStages, hns, if_false, hv]
    simp [internalManage, hrun]
  have h1 : validateCloudBaseConfig cfg RaceOutcome.timeoutCase =
      Except.error
        (CfgError.retryable "Failed to authenticate with the cloud store." 10000) := by
    simp [validateCloudBaseConfig, hname, hpass, hguild]
  have h2 : ∀ msg, validateCloudBaseConfig cfg (RaceOutcome.otherErrorCase msg) =
      Except.error
        (CfgError.retryable "Failed to authenticate with the cloud store." 10000) := by
    intro msg
    simp [validateCloudBaseConfig, hname, hpass, hguild]
  have h3 : ∀ msg, validateCloudBaseConfig cfg (RaceOutcome.authErrorCase msg) =
      Except.error (CfgError.auth msg) := by
    intro msg
    simp [validateCloudBaseConfig, hname, hpass, hguild]
  refine ⟨h1, h2, fun msg => ⟨h3 msg, rfl⟩, ?_, ?_⟩
  · intro hrace
    have he : validateCloudBaseConfig cfg race =
        Except.error
          (CfgError.retryable "Failed to authenticate with the cloud store." 10000) := by
      rcases hrace with rfl | ⟨msg, rfl⟩
      · exact h1
      · exact h2 msg
    have := habort _ he
    exact ⟨this.1, this.2.1, this.2.2⟩
  · intro msg hrace
    subst hrace
    have := habort _ (h3 msg)
    exact ⟨this.1, this.2.1, this.2.2⟩

/-- Witness for cloud_auth_retry_policy: a concrete cloud config with
the race timing out. -/
theorem cloud_auth_retry_policy_witness :
    (validateCloudBaseConfig ⟨"acc", "pw", "guild", true⟩ RaceOutcome.timeoutCase =
      Except.error
        (CfgError.retryable "Failed to authenticate with the cloud store." 10000)) ∧
    (∀ msg, validateCloudBaseConfig ⟨"acc", "pw", "guild", true⟩
        (RaceOutcome.otherErrorCase msg) =
      Except.error
        (CfgError.retryable "Failed to authenticate with the cloud store." 10000)) ∧
    (∀ msg, validateCloudBaseConfig ⟨"acc", "pw", "guild", true⟩
        (RaceOutcome.authErrorCase msg) =
      Except.error (CfgError.auth msg) ∧
      CfgError.isRetryable (CfgError.auth msg) = false) ∧
    ((RaceOutcome.timeoutCase = RaceOutcome.timeoutCase ∨
        (∃ msg, RaceOutcome.timeoutCase = RaceOutcome.otherErrorCase msg)) →
      (internalManage (cloudEnv ⟨"acc", "pw", "guild", true⟩ RaceOutcome.timeoutCase)
        ⟨[⟨false, 0⟩], true, "", false, none, ()⟩).1.retryTimer = some 10000 ∧
      (internalManage (cloudEnv ⟨"acc", "pw", "guild", true⟩ RaceOutcome.timeoutCase)
        ⟨[⟨false, 0⟩], true, "", false, none, ()⟩).1.configValid = false ∧
      (internalManage (cloudEnv ⟨"acc", "pw", "guild", true⟩ RaceOutcome.timeoutCase)
        ⟨[⟨false, 0⟩], true, "", false, none, ()⟩).1.configMessage =
        "Failed to authenticate with the cloud store.") ∧
    (∀ msg, RaceOutcome.timeoutCase = RaceOutcome.authErrorCase msg →
      (internalManage (cloudEnv ⟨"acc", "pw", "guild", true⟩ RaceOutcome.timeoutCase)
        ⟨[⟨false, 0⟩], true, "", false, none, ()⟩).1.retryTimer = none ∧
      (internalManage (cloudEnv ⟨"acc", "pw", "guild", true⟩ RaceOutcome.timeoutCase)
        ⟨[⟨false, 0⟩], true, "", false, none, ()⟩).1.configValid = false ∧
      (internalManage (cloudEnv ⟨"acc", "pw", "guild", true⟩ RaceOutcome.timeoutCase)
        ⟨[⟨false, 0⟩], true, "", false, none, ()⟩).1.configMessage = msg) :=
  cloud_auth_retry_policy ⟨"acc", "pw", "guild", true⟩ ⟨false, 0⟩
    ⟨[⟨false, 0⟩], true, "", false, none, ()⟩ RaceOutcome.timeoutCase
    (by decide) (by decide) (by decide) rfl rfl

/-- C6: refreshStatus computes the composite status by the fixed
first-match-wins priority of the spec over all flag combinations:
reconfiguring, then invalid config (with the stored message), then any
handler overrunning, then any handler in activity, then engine state
Recording, then engine state in the Offline/Starting/Stopping set. -/
theorem status_priority (s : StatusIn) :
    compositeOf (refreshStatus s) = some (specCompositeStatus s) := by
  rcases s with ⟨rc, cv, msg, rt, cl, er, obs, mic⟩
  by_cases h1 : rc = true
  · simp [refreshStatus, specCompositeStatus, h1, compositeOf]
  · by_cases h2 : cv = true
    · by_cases h3 : (overrunOf rt || overrunOf cl || overrunOf er) = true
      · simp [refreshStatus, specCompositeStatus, anyOverrun, h1, h2, h3,
          compositeOf]
      · by_cases h4 : (activityOf rt || activityOf cl || activityOf er) = true
        · simp [refreshStatus, specCompositeStatus, anyOverrun, anyActivity,
            h1, h2, h3, h4, compositeOf]
        · cases obs <;>
            simp [refreshStatus, specCompositeStatus, anyOverrun, anyActivity,
              h1, h2, h3, h4, compositeOf]
    · simp [refreshStatus, specCompositeStatus, h1, h2, compositeOf]

/-- C7 counterexample: when reconfiguring is set, refreshStatus
publishes the Reconfiguring composite status but returns before the
mic status is published, so the mic status does not accompany every
composite outcome. -/
theorem mic_status_every_outcome_cex :
    compositeOf (refreshStatus
      ⟨true, true, "", none, none, none, ERecordingState.Offline, 3⟩) =
      some (RecStatus.Reconfiguring, "") ∧
    micEmissions (refreshStatus
      ⟨true, true, "", none, none, none, ERecordingState.Offline, 3⟩) = [] ∧
    micEmissions (refreshStatus
      ⟨false, false, "bad", none, none, none, ERecordingState.Offline, 3⟩) = [] := by
  decide

/-- C7 amended: refreshStatus publishes the mic status exactly when
the composite outcome is neither Reconfiguring nor InvalidConfig
(i.e. when not reconfiguring and the config is valid) — those two
branches return early, before the mic update; when published, the mic
status is the recorder's polled mic state, computed independently, and
the mic state never gates the composite status. -/
theorem mic_status_amended (s : StatusIn) :
    (micEmissions (refreshStatus s) =
      if s.reconfiguring = false ∧ s.configValid = true
      then [s.obsMicState] else []) ∧
    (∀ mic1 mic2 : MicStatus,
      compositeOf (refreshStatus { s with obsMicState := mic1 }) =
      compositeOf (refreshStatus { s with obsMicState := mic2 })) := by
  rcases s with ⟨rc, cv, msg, rt, cl, er, obs, mic⟩
  constructor
  · by_cases h1 : rc = true
    · simp [refreshStatus, h1, micEmissions]
    · by_cases h2 : cv = true
      · by_cases h3 : (overrunOf rt || overrunOf cl || overrunOf er) = true
        · simp [refreshStatus, anyOverrun, h1, h2, h3, micEmissions]
        · by_cases h4 : (activityOf rt || activityOf cl || activityOf er) = true
          · simp [refreshStatus, anyOverrun, anyActivity, h1, h2, h3, h4,
              micEmissions]
          · cases obs <;>
              simp [refreshStatus, anyOverrun, anyActivity, h1, h2, h3, h4,
                micEmissions]
      · simp [refreshStatus, h1, h2, micEmissions]
  · intro mic1 mic2
    by_cases h1 : rc = true
    · simp [refreshStatus, h1, compositeOf]
    · by_cases h2 : cv = true
      · by_cases h3 : (overrunOf rt || overrunOf cl || overrunOf er) = true
        · simp [refreshStatus, anyOverrun, h1, h2, h3, compositeOf]
        · by_cases h4 : (activityOf rt || activityOf cl || activityOf er) = true
          · simp [refreshStatus, anyOverrun, anyActivity, h1, h2, h3, h4,
              compositeOf]
          · cases obs <;>
              simp [refreshStatus, anyOverrun, anyActivity, h1, h2, h3, h4,
                compositeOf]
      · simp [refreshStatus, h1, h2, compositeOf]

/-- C9: a tick of the periodic restart timer — scheduled every
5 minutes (300000 ms) — performs no recorder action unless the engine
state is Recording and no log handler reports an activity or an
overrun; when eligible it performs exactly stop, then cleanup, then
start, in that order. -/
theorem restart_scheduler_safety (obsState : ERecordingState)
    (hRetail hClassic hEra : Option HandlerFlags) :
    restartRecorder obsState hRetail hClassic hEra =
      (if obsState = ERecordingState.Recording
          ∧ (activityOf hRetail || activityOf hClassic || activityOf hEra) = false
          ∧ (overrunOf hRetail || overrunOf hClassic || overrunOf hEra) = false
        then [RecorderAction.stop, RecorderAction.cleanup, RecorderAction.start]
        else []) ∧
    restartIntervalMs = 300000 := by
  constructor
  · by_cases h1 : obsState = ERecordingState.Recording
    · by_cases h2 : (activityOf hRetail || activityOf hClassic || activityOf hEra)
          = true
      · simp [restartRecorder, h1, h2]
      · by_cases h3 : (overrunOf hRetail || overrunOf hClassic || overrunOf hEra)
            = true
        · simp [restartRecorder, h1, h2, h3]
        · simp_all [restartRecorder, h1]
    · simp [restartRecorder, h1]
  · rfl

/-- C10: applying the audio stage changes the recorder's audio sources
only when the poller reports the game running: with WoW not running,
configureObsAudio leaves the recorder state unchanged, yet a
reconciliation pass over the audio stage (whose validate always
succeeds) still marks the stage valid and stores the freshly fetched
snapshot as its current; the new audio config is instead attached by
onWowStarted on the next game-start event, which configures the audio
sources from the freshly fetched config before starting the
recorder. -/
theorem audio_stage_offline_noop (env : StageEnv RecorderSt) (iA : Nat)
    (st : StageSt) (r : RecorderSt) (snap : Snap)
    (hval : env.validate iA (env.fetch iA) = Except.ok ())
    (hfx : env.applyFx iA = fun sn rc => configureObsAudio rc sn)
    (hwow : r.wowRunning = false) :
    configureObsAudio r snap = r ∧
    (runStages env iA [st] r).stages = [⟨true, env.fetch iA⟩] ∧
    (runStages env iA [st] r).rcdr = r ∧
    (runStages env iA [st] r).err = none ∧
    (∀ r2 snap2, (onWowStarted r2 snap2).1.audioSources = some snap2 ∧
      (onWowStarted r2 snap2).2 =
        [RecorderAction.configureAudioSources snap2, RecorderAction.start]) := by
  have hnoop : configureObsAudio r snap = r := by
    simp [configureObsAudio, hwow]
  have hmain : (runStages env iA [st] r).stages = [⟨true, env.fetch iA⟩] ∧
      (runStages env iA [st] r).rcdr = r ∧
      (runStages env iA [st] r).err = none := by
    by_cases hsk : st.valid = true ∧ env.fetch iA = st.current
    · rcases st with ⟨v, c⟩
      obtain ⟨hv, hc⟩ := hsk
      dsimp at hv hc
      subst hv
      subst hc
      simp [runStages]
    · simp only [runStages, hsk, if_false, hval, hfx]
      simp [configureObsAudio, hwow, runStages]
  exact ⟨hnoop, hmain.1, hmain.2.1, hmain.2.2, fun r2 snap2 => ⟨rfl, rfl⟩⟩

/-- Witness for audio_stage_offline_noop: the game not running, an
audio stage with a changed snapshot. -/
theorem audio_stage_offline_noop_witness :
    configureObsAudio ⟨false, some 1⟩ 42 = ⟨false, some 1⟩ ∧
    (runStages
      (⟨fun _ => 42, fun _ _ => Except.ok (),
        fun _ sn rc => configureObsAudio rc sn⟩ : StageEnv RecorderSt)
      2 [⟨true, 7⟩] ⟨false, some 1⟩).stages = [⟨true, 42⟩] ∧
    (runStages
      (⟨fun _ => 42, fun _ _ => Except.ok (),
        fun _ sn rc => configureObsAudio rc sn⟩ : StageEnv RecorderSt)
      2 [⟨true, 7⟩] ⟨false, some 1⟩).rcdr = ⟨false, some 1⟩ ∧
    (runStages
      (⟨fun _ => 42, fun _ _ => Except.ok (),
        fun _ sn rc => configureObsAudio rc sn⟩ : StageEnv RecorderSt)
      2 [⟨true, 7⟩] ⟨false, some 1⟩).err = none ∧
    (∀ r2 snap2, (onWowStarted r2 snap2).1.audioSources = some snap2 ∧
      (onWowStarted r2 snap2).2 =
        [RecorderAction.configureAudioSources snap2, RecorderAction.start]) :=
  audio_stage_offline_noop
    (⟨fun _ => 42, fun _ _ => Except.ok (),
      fun _ sn rc => configureObsAudio rc sn⟩ : StageEnv RecorderSt)
    2 ⟨true, 7⟩ ⟨false, some 1⟩ 42 rfl rfl rfl

end WowRecorder
